import Mathlib

/-!
Verification of the Liveblocks migration engine (`LiveblocksMigrationHandler.ts`,
`utils/helpers.ts`, and the throttled-batch helper file) against its
natural-language specification.  The TypeScript sources are shallowly embedded:
pure functions become Lean functions, the Liveblocks / database collaborators
become explicit state records with call counters, and JavaScript's dynamic
values (JSON, falsiness) are embedded by a small `JSValue` type.
-/

namespace LiveblocksMigration

/-- Type `ThreadCommentMetadata` from `utils/types.ts`: one idempotency-ledger pair
`{cordMessageId, liveblocksCommentId}`. -/
structure ThreadCommentMetadata where
  cordMessageId : String
  liveblocksCommentId : String
  deriving DecidableEq, Repr

/-- The ledger type `ThreadCommentsMetadata` from `utils/types.ts`. -/
abbrev ThreadCommentsMetadata := List ThreadCommentMetadata

/-- The merge expression inside `addCommmetsMetadataToThread`
(`LiveblocksMigrationHandler.ts` lines 270-275):
`[...existingPairs.filter(p => !commentsMetadata.find(m => m.cordMessageId === p.cordMessageId))].concat(commentsMetadata)`. -/
def mergeCommentPairs (existingPairs commentsMetadata : ThreadCommentsMetadata) :
    ThreadCommentsMetadata :=
  (existingPairs.filter fun p =>
    (commentsMetadata.find? fun m => m.cordMessageId = p.cordMessageId).isNone)
    ++ commentsMetadata

/-- The spec's description of the merge (`mergeLedger`): existing pairs whose
source-message-id does not appear among the new pairs, in original order,
followed by the new pairs. -/
def mergeLedgerSpec (existingPairs commentsMetadata : ThreadCommentsMetadata) :
    ThreadCommentsMetadata :=
  (existingPairs.filter fun p =>
    ¬ commentsMetadata.any fun m => m.cordMessageId = p.cordMessageId)
    ++ commentsMetadata

/-! ### JavaScript value model and `JSON.parse` (for `parseThreadCommentsMetadata`) -/

/-- A JSON / JavaScript value, as produced by `JSON.parse`.  Numbers are
modeled as integers (every number appearing in the ledger inputs is an
integer literal). -/
inductive JSValue where
  | null : JSValue
  | bool : Bool → JSValue
  | num : Int → JSValue
  | str : String → JSValue
  | arr : List JSValue → JSValue
  | obj : List (String × JSValue) → JSValue
  deriving Repr

/-- JavaScript falsiness (`!value`). -/
def falsy : JSValue → Bool
  | .null => true
  | .bool b => !b
  | .num n => n == 0
  | .str s => s == ""
  | .arr _ => false
  | .obj _ => false

def lbraceChar : Char := Char.ofNat 123

def rbraceChar : Char := Char.ofNat 125

/-- Skip JSON whitespace. -/
def skipWs : List Char → List Char
  | c :: cs => if c = ' ' ∨ c = '\t' ∨ c = '\n' ∨ c = '\r' then skipWs cs else c :: cs
  | [] => []

/-- Decode one escape character after a backslash (the `\uXXXX` form is not
needed by any ledger input and is rejected). -/
def escChar (c : Char) : Option Char :=
  if c = '"' then some '"'
  else if c = '\\' then some '\\'
  else if c = '/' then some '/'
  else if c = 'b' then some (Char.ofNat 8)
  else if c = 'f' then some (Char.ofNat 12)
  else if c = 'n' then some '\n'
  else if c = 'r' then some '\r'
  else if c = 't' then some '\t'
  else none

/-- Parse the body of a JSON string after the opening quote. -/
def parseStringBody : List Char → List Char → Option (String × List Char)
  | [], _ => none
  | '"' :: rest, acc => some (String.mk acc.reverse, rest)
  | '\\' :: rest, acc =>
    match rest with
    | [] => none
    | e :: rest' =>
      match escChar e with
      | some c => parseStringBody rest' (c :: acc)
      | none => none
  | c :: rest, acc => parseStringBody rest (c :: acc)

/-- Parse a run of decimal digits. -/
def parseDigits : List Char → Nat → Option (Nat × List Char)
  | c :: cs, acc =>
    if c.isDigit then
      match parseDigits cs (acc * 10 + (c.toNat - 48)) with
      | some r => some r
      | none => some (acc * 10 + (c.toNat - 48), cs)
    else if acc = 0 ∧ ¬ c.isDigit then none
    else some (acc, c :: cs)
  | [], acc => some (acc, [])

/-- Whether `cs` starts with the literal `pre`, returning the remainder. -/
def takeLit : List Char → List Char → Option (List Char)
  | [], cs => some cs
  | p :: ps, c :: cs => if p = c then takeLit ps cs else none
  | _ :: _, [] => none

mutual

/-- Recursive-descent JSON value parser (fuelled; `parseJson` supplies ample
fuel, one unit per character). -/
def parseValue : Nat → List Char → Option (JSValue × List Char)
  | 0, _ => none
  | fuel + 1, cs =>
    match skipWs cs with
    | [] => none
    | c :: rest =>
      if c = '"' then
        match parseStringBody rest [] with
        | some (s, r) => some (.str s, r)
        | none => none
      else if c = '[' then
        match skipWs rest with
        | ']' :: r => some (.arr [], r)
        | cs' =>
          match parseValue fuel cs' with
          | some (v, r) => parseArrayTail fuel r [v]
          | none => none
      else if c = lbraceChar then
        match skipWs rest with
        | d :: r => if d = rbraceChar then some (.obj [], r) else parseObjectItems fuel (d :: r) []
        | [] => none
      else if c = 't' then
        match takeLit ['r', 'u', 'e'] rest with
        | some r => some (.bool true, r)
        | none => none
      else if c = 'f' then
        match takeLit ['a', 'l', 's', 'e'] rest with
        | some r => some (.bool false, r)
        | none => none
      else if c = 'n' then
        match takeLit ['u', 'l', 'l'] rest with
        | some r => some (.null, r)
        | none => none
      else if c = '-' then
        match parseDigits rest 0 with
        | some (n, r) => if rest.isEmpty ∨ ¬ (rest.headD ' ').isDigit then none
                         else some (.num (-(n : Int)), r)
        | none => none
      else if c.isDigit then
        match parseDigits (c :: rest) 0 with
        | some (n, r) => some (.num (n : Int), r)
        | none => none
      else none

/-- Parse the remainder of a JSON array after one element has been read. -/
def parseArrayTail : Nat → List Char → List JSValue → Option (JSValue × List Char)
  | 0, _, _ => none
  | fuel + 1, cs, acc =>
    match skipWs cs with
    | ']' :: r => some (.arr acc.reverse, r)
    | ',' :: r =>
      match parseValue fuel r with
      | some (v, r') => parseArrayTail fuel r' (v :: acc)
      | none => none
    | _ => none

/-- Parse the members of a JSON object (at least one member present). -/
def parseObjectItems : Nat → List Char → List (String × JSValue) →
    Option (JSValue × List Char)
  | 0, _, _ => none
  | fuel + 1, cs, acc =>
    match skipWs cs with
    | '"' :: rest =>
      match parseStringBody rest [] with
      | some (k, r) =>
        match skipWs r with
        | ':' :: r' =>
          match parseValue fuel r' with
          | some (v, r'') =>
            match skipWs r'' with
            | ',' :: r3 => parseObjectItems fuel r3 ((k, v) :: acc)
            | d :: r3 => if d = rbraceChar then some (.obj ((k, v) :: acc).reverse, r3) else none
            | [] => none
          | none => none
        | _ => none
      | none => none
    | _ => none

end

/-- Model of `JSON.parse`: parse a whole string as one JSON value (throwing = `none`). -/
def parseJson (s : String) : Option JSValue :=
  match parseValue (s.length + 1) s.toList with
  | some (v, rest) => if (skipWs rest).isEmpty then some v else none
  | none => none

/-- JavaScript `'key' in value` on an object modeled as a field list. -/
def hasField (fields : List (String × JSValue)) (k : String) : Bool :=
  fields.any fun f => f.1 == k

/-- Function `parseThreadCommentMetadata` from `utils/helpers.ts` lines 151-176: falsy
values and non-objects are rejected, strings are `JSON.parse`d and re-checked
recursively, and an object is accepted (and returned as-is, mirroring the TS
cast) only when both `cordMessageId` and `liveblocksCommentId` are present.
The TS recursion terminates because each string strictly shrinks; it is
embedded with a fuel argument (`parseThreadCommentsMetadata` supplies ample
fuel). -/
def parseThreadCommentMetadata : Nat → JSValue → Option JSValue
  | 0, _ => none
  | fuel + 1, v =>
    if falsy v then none
    else
      match v with
      | .str s =>
        match parseJson s with
        | some parsed => parseThreadCommentMetadata fuel parsed
        | none => none
      | .num _ => none
      | .bool _ => none
      | .null => none
      | .arr _ => none
      | .obj fields =>
        if hasField fields "cordMessageId" && hasField fields "liveblocksCommentId" then
          some (.obj fields)
        else none

mutual

/-- Size measure used only to supply fuel for the string-unwrapping recursion. -/
def jsSize : JSValue → Nat
  | .null => 1
  | .bool _ => 1
  | .num _ => 1
  | .str s => s.length + 1
  | .arr xs => 1 + jsSizeList xs
  | .obj fs => 1 + jsSizeFields fs

/-- Total size of a list of JSON values. -/
def jsSizeList : List JSValue → Nat
  | [] => 0
  | v :: vs => jsSize v + jsSizeList vs

/-- Total size of the values of an object's field list. -/
def jsSizeFields : List (String × JSValue) → Nat
  | [] => 0
  | f :: fs => jsSize f.2 + jsSizeFields fs

end

/-- The runtime type of the `value` parameter of `parseThreadCommentsMetadata`
(`string | number | boolean | undefined`). -/
inductive MetaInput where
  | undef : MetaInput
  | str : String → MetaInput
  | num : Int → MetaInput
  | bool : Bool → MetaInput

/-- Function `parseThreadCommentsMetadata` from `utils/helpers.ts` lines 183-215:
non-strings give `[]`, a string is `JSON.parse`d (`[]` on throw), non-arrays
give `[]`, and each array element is kept only if `parseThreadCommentMetadata`
accepts it. -/
def parseThreadCommentsMetadata : MetaInput → List JSValue
  | .str s =>
    match parseJson s with
    | none => []
    | some (.arr items) =>
        items.filterMap fun item => parseThreadCommentMetadata (jsSize item + 1) item
    | some _ => []
  | _ => []

/-! ### Location serialization, SHA-1, UUID v5 and `getRoomId` -/

/-- A `Location` value (`string | number | boolean`, from `@cord-sdk/types`). -/
inductive LocVal where
  | str : String → LocVal
  | num : Int → LocVal
  | bool : Bool → LocVal
  deriving DecidableEq, Repr

/-- A `Location`: a JavaScript object embedded as its insertion-ordered entry
list (`JSON.stringify` serializes string-keyed entries in insertion order). -/
abbrev Location := List (String × LocVal)

/-- The `JSON.stringify` escaping and quoting of a string. -/
def jsonQuote (s : String) : String :=
  "\"" ++ String.join (s.toList.map fun c =>
    if c = '"' then "\\\""
    else if c = '\\' then "\\\\"
    else if c = '\n' then "\\n"
    else if c = '\t' then "\\t"
    else if c = '\r' then "\\r"
    else String.singleton c) ++ "\""

/-- Serialization by `JSON.stringify` of a `Location` value. -/
def stringifyLocVal : LocVal → String
  | .str s => jsonQuote s
  | .num n => toString n
  | .bool b => if b then "true" else "false"

/-- Serialization `JSON.stringify(location)`: entries in insertion order, no whitespace. -/
def stringifyLocation (location : Location) : String :=
  String.singleton lbraceChar ++
    String.intercalate ","
      (location.map fun e => jsonQuote e.1 ++ ":" ++ stringifyLocVal e.2) ++
    String.singleton rbraceChar

/-- UTF-8 encoding of one character. -/
def utf8Char (c : Char) : List Nat :=
  let n := c.toNat
  if n < 128 then [n]
  else if n < 2048 then [192 + n / 64, 128 + n % 64]
  else if n < 65536 then [224 + n / 4096, 128 + (n / 64) % 64, 128 + n % 64]
  else [240 + n / 262144, 128 + (n / 4096) % 64, 128 + (n / 64) % 64, 128 + n % 64]

/-- UTF-8 encoding of a string as a byte list. -/
def utf8Bytes (s : String) : List Nat :=
  (s.toList.map utf8Char).flatten

/-- Rotate a 32-bit word left by `n`. -/
def rotl (n x : Nat) : Nat :=
  ((x <<< n) ||| (x >>> (32 - n))) % 4294967296

/-- SHA-1 padding: append `0x80`, zero bytes to 56 mod 64, then the 64-bit
big-endian bit length. -/
def sha1pad (msg : List Nat) : List Nat :=
  let bitLen := msg.length * 8
  let zeros := (119 - msg.length % 64) % 64
  msg ++ [128] ++ List.replicate zeros 0 ++
    ([56, 48, 40, 32, 24, 16, 8, 0].map fun sh => (bitLen >>> sh) % 256)

/-- Split a list into chunks of `n` (fuel-driven; callers pass the length). -/
def chunksOf (n : Nat) : Nat → List α → List (List α)
  | 0, _ => []
  | _, [] => []
  | fuel + 1, l => l.take n :: chunksOf n fuel (l.drop n)

/-- Big-endian 32-bit words from a byte list. -/
def bytesToWords : List Nat → List Nat
  | a :: b :: c :: d :: rest =>
    (a * 16777216 + b * 65536 + c * 256 + d) :: bytesToWords rest
  | _ => []

/-- Extend the 16-word block to the 80-word SHA-1 message schedule. -/
def sha1Extend : Nat → Array Nat → Array Nat
  | 0, w => w
  | fuel + 1, w =>
    let i := w.size
    if 80 ≤ i then w
    else
      sha1Extend fuel
        (w.push (rotl 1
          (w.getD (i - 3) 0 ^^^ w.getD (i - 8) 0 ^^^
            w.getD (i - 14) 0 ^^^ w.getD (i - 16) 0)))

/-- One SHA-1 compression step. -/
def sha1Step (st : Nat × Nat × Nat × Nat × Nat) (i wi : Nat) :
    Nat × Nat × Nat × Nat × Nat :=
  let (a, b, c, d, e) := st
  let f :=
    if i < 20 then (b &&& c) ||| ((b ^^^ 4294967295) &&& d)
    else if i < 40 then b ^^^ c ^^^ d
    else if i < 60 then (b &&& c) ||| (b &&& d) ||| (c &&& d)
    else b ^^^ c ^^^ d
  let k :=
    if i < 20 then 1518500249
    else if i < 40 then 1859775393
    else if i < 60 then 2400959708
    else 3395469782
  let temp := (rotl 5 a + f + e + k + wi) % 4294967296
  (temp, a, rotl 30 b, c, d)

/-- SHA-1 compression of one 64-byte block. -/
def sha1Block (h : Nat × Nat × Nat × Nat × Nat) (block : List Nat) :
    Nat × Nat × Nat × Nat × Nat :=
  let w := sha1Extend 64 (bytesToWords block).toArray
  let (h0, h1, h2, h3, h4) := h
  let (a, b, c, d, e) :=
    ((List.range 80).zip w.toList).foldl (fun st p => sha1Step st p.1 p.2)
      (h0, h1, h2, h3, h4)
  ((h0 + a) % 4294967296, (h1 + b) % 4294967296, (h2 + c) % 4294967296,
    (h3 + d) % 4294967296, (h4 + e) % 4294967296)

/-- Big-endian bytes of a 32-bit word. -/
def wordBytes (x : Nat) : List Nat :=
  [(x >>> 24) % 256, (x >>> 16) % 256, (x >>> 8) % 256, x % 256]

/-- SHA-1 of a byte list (20-byte digest). -/
def sha1 (msg : List Nat) : List Nat :=
  let padded := sha1pad msg
  let blocks := chunksOf 64 padded.length padded
  let (h0, h1, h2, h3, h4) :=
    blocks.foldl sha1Block
      (1732584193, 4023233417, 2562383102, 271733878, 3285377520)
  ([h0, h1, h2, h3, h4].map wordBytes).flatten

/-- Lowercase hex digit. -/
def hexDigit (n : Nat) : Char :=
  if n < 10 then Char.ofNat (48 + n) else Char.ofNat (87 + n)

/-- Two-digit lowercase hex of a byte. -/
def byteHex (n : Nat) : String :=
  String.mk [hexDigit (n / 16), hexDigit (n % 16)]

/-- Hex string of a byte list. -/
def bytesHex (bs : List Nat) : String :=
  String.join (bs.map byteHex)

/-- UUID v5 (RFC 4122, SHA-1 based) of `name` under namespace `ns` (16 bytes):
hash `ns ++ name`, keep 16 bytes, force version 5 and the RFC variant, and
render in the canonical 8-4-4-4-12 hyphenated lowercase form — the `v5`
function of the `uuid` npm package. -/
def uuidv5 (ns name : List Nat) : String :=
  let h := (sha1 (ns ++ name)).take 16
  let b := h.mapIdx fun i x =>
    if i = 6 then (x % 16) + 80
    else if i = 8 then (x % 64) + 128
    else x
  bytesHex (b.take 4) ++ "-" ++ bytesHex ((b.drop 4).take 2) ++ "-" ++
    bytesHex ((b.drop 6).take 2) ++ "-" ++ bytesHex ((b.drop 8).take 2) ++ "-" ++
    bytesHex (b.drop 10)

/-- Modelled from the spec: `ROOM_ID_NAMESPACE` is exported from
`utils/index.ts`, which is not part of the provided sources; the spec only
requires a fixed namespace constant for the "namespace-salted hash".  The
standard DNS namespace UUID stands in for it; no claim depends on which
fixed namespace is used. -/
def roomIdNamespaceBytes : List Nat :=
  [107, 167, 184, 16, 157, 173, 17, 209, 128, 180, 0, 192, 79, 212, 48, 200]

/-- Function `getRoomId` from `utils/helpers.ts` lines 261-263:
`uuid(JSON.stringify(location), ROOM_ID_NAMESPACE)` with `uuid = v5`. -/
def getRoomId (location : Location) : String :=
  uuidv5 roomIdNamespaceBytes (utf8Bytes (stringifyLocation location))

/-! ### The throttled batch executor (`split`, `throttledPromises`) -/

/-- Loop of `split` from the batch helper file (lines 319-325):
`while (arr.length) res.push(arr.splice(0, n))`.  The fuel equals the array
length, enough for any positive `n`; each step removes the first `n` elements
from the caller's array, which is threaded through and returned alongside the
batches to model the in-place `splice` mutation.  (With `n = 0` the source
loop never terminates; here the fuel just runs out — every caller passes a
positive batch size.) -/
def splitGo (n : Nat) : Nat → List α → List (List α) → List (List α) × List α
  | 0, arr, acc => (acc.reverse, arr)
  | fuel + 1, arr, acc =>
    if arr.isEmpty then (acc.reverse, arr)
    else splitGo n fuel (arr.drop n) (arr.take n :: acc)

/-- Function `split(arr, n)`: returns the batches together with the final (drained)
state of the caller's array. -/
def split (arr : List α) (n : Nat) : List (List α) × List α :=
  splitGo n arr.length arr []

/-- The error of a settled promise, if it rejected. -/
def errOf : Except ε ρ → Option ε
  | .error e => some e
  | .ok _ => none

/-- One run of the batch loop of `throttledPromises` (lines 348-359): for each
batch in order, every item's operation runs (`Promise.all` on the
`.catch`-wrapped promises always resolves), a rejected item contributes
`undefined` (`none`) to `output` while the first rejection anywhere fires the
outer `reject`; the loop continues through later batches regardless.  The
per-item operation receives the global index `batchNumber * batchSize +
innerIndex` and the (already drained) `items` array.  Concurrency inside a
batch is serialized in item order; the operations are pure in this embedding,
so the interleaving does not affect results. -/
def runBatches (op : α → Nat → List α → Except ε ρ) (emptied : List α) (n : Nat) :
    List (List α) → Nat → List (Option ρ) × Option ε
  | [], _ => ([], none)
  | batch :: rest, batchNumber =>
    let slots := batch.mapIdx fun innerIndex item =>
      op item (batchNumber * n + innerIndex) emptied
    let (outsRest, errRest) := runBatches op emptied n rest (batchNumber + 1)
    (slots.map Except.toOption ++ outsRest,
      match slots.filterMap errOf with
      | e :: _ => some e
      | [] => errRest)

/-- Function `throttledPromises` from the batch helper file (lines 339-367): split the
items into batches (draining the caller's array), run each batch, collect
`output`, and resolve with it — unless some operation rejected, in which case
the returned promise is already rejected with the first error (the later
`resolve(output)` is a no-op).  The source defaults are `batchSize = 10`,
`delay = 50`; the inter-batch `delayMS(delay)` sleep only spaces batches in
time and has no effect on results, so `delay` is an unused parameter here. -/
def throttledPromises (op : α → Nat → List α → Except ε ρ) (items : List α)
    (batchSize : Nat) (delay : Nat) : Except ε (List (Option ρ)) :=
  let (batches, emptied) := split items batchSize
  let (output, firstErr) := runBatches op emptied batchSize batches 0
  match firstErr with
  | some e => .error e
  | none => .ok output

/-- Demo operation for C5's concrete scenario: 7 items, the operation of item
at global index 4 (item #5) fails by resolving `null`, the others resolve a
value; no operation rejects. -/
def opItem5Fails (a : Nat) (i : Nat) (_ : List Nat) : Except Unit (Option Nat) :=
  .ok (if i = 4 then none else some (a + 10))

/-! ### Cord source data model and `utils/helpers.ts` comment helpers -/

/-- JavaScript truthiness of a nullable string (`null`, `undefined` and `""`
are falsy). -/
def truthyStr : Option String → Bool
  | none => false
  | some s => !(s == "")

/-- A `UserEntity` row (the fields used by the migration). -/
structure CordUser where
  id : String
  externalID : Option String
  deriving DecidableEq, Repr

/-- An `EmailOutboundNotificationEntity` row (the fields used). -/
structure EmailNotification where
  id : String
  userID : String
  deriving DecidableEq, Repr

/-- A rich-text `MessageNode` of a Cord message (`@cord-sdk/types`): untyped
text leaves and the typed nodes the translator inspects (`PARAGRAPH`,
`MENTION`, `LINK`, `ASSIGNEE`; any other typed node is `other`). -/
inductive MessageNode where
  | text : String → Bool → Bool → Bool → MessageNode
  | paragraph : List MessageNode → MessageNode
  | mention : String → List MessageNode → MessageNode
  | link : String → List MessageNode → MessageNode
  | assignee : List MessageNode → MessageNode
  | other : List MessageNode → MessageNode
  deriving Repr

/-- A `MessageEntity` row (the fields used; `timestamp` as epoch number,
`sourceID` is the author id and is nullable). -/
structure CordMessage where
  id : String
  threadID : String
  sourceID : Option String
  timestamp : Int
  content : List MessageNode
  deriving Repr

/-- A `MessageReactionEntity` row (the fields used; `userID` nullable). -/
structure CordReaction where
  id : String
  userID : Option String
  unicodeReaction : String
  timestamp : Int
  deriving DecidableEq, Repr

/-- A `ThreadEntity` row (the fields used). -/
structure CordThread where
  id : String
  orgID : String
  createdTimestamp : Int
  resolvedTimestamp : Option Int
  resolverUserID : Option String
  deriving DecidableEq, Repr

/-- An `OrgEntity` row (the fields used). -/
structure CordOrg where
  id : String
  externalID : Option String
  deriving DecidableEq, Repr

/-- Type `CordData` from `utils/types.ts` (the collaborator snapshot the handler
queries up-front; `notifications` is unused by the migration logic). -/
structure CordData where
  orgs : List CordOrg
  users : List CordUser
  threads : List CordThread
  messages : List CordMessage
  emailNotifications : List EmailNotification
  deriving Repr

/-- Function `getExternalUserId` from `utils/helpers.ts` lines 102-124: falsy user id
gives `null`; look the user up by id, falling back to a user referenced by an
email notification whose `id` or `userID` matches; a missing user gives
`null`, a found user yields its (nullable) `externalID`. -/
def getExternalUserId (cordData : CordData) (cordUserId : Option String) :
    Option String :=
  if ¬ truthyStr cordUserId then none
  else
    let uid := cordUserId.getD ""
    let user :=
      match cordData.users.find? fun u => u.id == uid with
      | some u => some u
      | none =>
        match cordData.emailNotifications.find? fun (en : EmailNotification) =>
            en.id == uid || en.userID == uid with
        | some en => cordData.users.find? fun u => u.id == en.userID
        | none => none
    match user with
    | none => none
    | some u => u.externalID

/-- An inline element of a Liveblocks comment body. -/
inductive CommentBodyInlineElement where
  | text : String → Bool → Bool → Bool → CommentBodyInlineElement
  | mention : String → CommentBodyInlineElement
  | link : String → CommentBodyInlineElement
  deriving DecidableEq, Repr

/-- A block element of a Liveblocks comment body (the translator only ever
emits paragraphs). -/
structure CommentBodyBlockElement where
  children : List CommentBodyInlineElement
  deriving DecidableEq, Repr

/-- The child loop of `toLiveblocksCommentContent` (`utils/helpers.ts` lines
65-92): untyped children become inline text, `MENTION` children resolve the
mentioned user (falling back to the raw source user id when unresolvable),
`LINK` children become inline links; any other typed child is skipped. -/
def inlineOfChild (cordData : CordData) : MessageNode → List CommentBodyInlineElement
  | .text t b i c => [.text t b i c]
  | .mention uid _ =>
    match getExternalUserId cordData (some uid) with
    | some u => if u == "" then [.mention uid] else [.mention u]
    | none => [.mention uid]
  | .link url _ => [.link url]
  | .paragraph _ => []
  | .assignee _ => []
  | .other _ => []

/-- Function `toLiveblocksCommentContent` from `utils/helpers.ts` lines 41-100: an
untyped node becomes a one-text paragraph; `PARAGRAPH`/`MENTION`/`LINK`/
`ASSIGNEE` nodes collect their translated children into a paragraph; other
typed nodes yield an empty paragraph. -/
def toLiveblocksCommentContent (cordData : CordData) : MessageNode → CommentBodyBlockElement
  | .text t b i c => ⟨[.text t b i c]⟩
  | .paragraph children => ⟨(children.map (inlineOfChild cordData)).flatten⟩
  | .mention _ children => ⟨(children.map (inlineOfChild cordData)).flatten⟩
  | .link _ children => ⟨(children.map (inlineOfChild cordData)).flatten⟩
  | .assignee children => ⟨(children.map (inlineOfChild cordData)).flatten⟩
  | .other _ => ⟨[]⟩

/-- The `data` payload of a Liveblocks `createComment` call. -/
structure CreateCommentData where
  userId : String
  createdAt : Int
  version : Nat
  content : List CommentBodyBlockElement
  deriving DecidableEq, Repr

/-- Function `toCreateCommentData` from `utils/helpers.ts` lines 126-149: resolve the
message author via `getExternalUserId(message.sourceID)`; a falsy result
aborts with `null` (logged), otherwise build the comment payload from the
message content. -/
def toCreateCommentData (message : CordMessage) (cordData : CordData) :
    Option CreateCommentData :=
  let userId := getExternalUserId cordData message.sourceID
  if ¬ truthyStr userId then none
  else
    some
      { userId := userId.getD ""
        createdAt := message.timestamp
        version := 1
        content := message.content.map (toLiveblocksCommentContent cordData) }

/-! ### Liveblocks service model and the comment reconciler -/

/-- A Liveblocks comment as stored by the service. -/
structure LBComment where
  id : String
  roomId : String
  threadId : String
  deriving DecidableEq, Repr

/-- A Liveblocks thread (`ThreadData<CordThreadMetadata>`); the
`messageToCommentPairs` metadata value is kept in parsed form (its
string round-trip through `JSON.stringify`/`parseThreadCommentsMetadata`
is verified separately with C3). -/
structure LBThread where
  id : String
  roomId : String
  cordThreadId : Option String
  messageToCommentPairs : ThreadCommentsMetadata
  deriving DecidableEq, Repr

/-- State of the Liveblocks service plus call counters.  Remote calls are
deterministic in this embedding: a call succeeds unless the not-found /
conflict condition the code branches on holds (the catch-arms for other
remote errors are the operations the claims never exercise).  Fresh ids are
drawn from the counters. -/
structure LBState where
  comments : List LBComment
  threads : List LBThread
  nextCommentId : Nat
  nextThreadId : Nat
  createCommentCalls : Nat
  createThreadCalls : Nat
  addReactionCalls : Nat
  editThreadMetadataCalls : Nat
  markResolvedCalls : Nat
  reactionErrorLogs : Nat
  deriving DecidableEq, Repr

/-- Call `liveblocks.getComment`: `none` models the not-found (404) rejection. -/
def lbGetComment (s : LBState) (roomId threadId commentId : String) :
    Option LBComment :=
  s.comments.find? fun c =>
    c.id == commentId && c.roomId == roomId && c.threadId == threadId

/-- The per-reaction body of the `validReactions.map` inside
`addReactionsToComment` (lines 112-135): resolve the reaction author and
either issue `addCommentReaction` or log an error (a `null` entry). -/
def reactionStep (cordData : CordData) (st : LBState) (reaction : CordReaction) :
    LBState :=
  if truthyStr (getExternalUserId cordData reaction.userID) then
    { st with addReactionCalls := st.addReactionCalls + 1 }
  else
    { st with reactionErrorLogs := st.reactionErrorLogs + 1 }

/-- Function `addReactionsToComment` from `LiveblocksMigrationHandler.ts` lines 80-149:
fetch the message's reactions (`reactionsOf`), keep those with a truthy
`userID`; if none remain, log an error only when the raw list was non-empty
and return; otherwise run `reactionStep` for each kept reaction.  Only the
counters change per branch; the info log on success is not modeled. -/
def addReactionsToComment (cordData : CordData)
    (reactionsOf : String → List CordReaction) (cordMessageId : String)
    (_comment : LBComment) (s : LBState) : LBState :=
  let reactions := reactionsOf cordMessageId
  let validReactions := reactions.filter fun r => truthyStr r.userID
  if validReactions.isEmpty then
    if reactions.isEmpty then s
    else { s with reactionErrorLogs := s.reactionErrorLogs + 1 }
  else
    validReactions.foldl (reactionStep cordData) s

/-- Function `getExistingThreadComment` from `LiveblocksMigrationHandler.ts` lines
157-193: find the message's pair in the thread's parsed ledger; a missing
pair or a falsy comment id gives `null`; otherwise fetch the comment to
confirm it still exists, with the fetch failure (404 logged) giving `null`. -/
def getExistingThreadComment (s : LBState) (thread : LBThread)
    (message : CordMessage) : Option LBComment :=
  match thread.messageToCommentPairs.find? fun p => p.cordMessageId == message.id with
  | none => none
  | some existingPair =>
    if existingPair.liveblocksCommentId == "" then none
    else lbGetComment s thread.roomId thread.id existingPair.liveblocksCommentId

/-- Function `createNewComment` from `LiveblocksMigrationHandler.ts` lines 195-253: if
the ledger already has a live comment for this message, return that pair
without creating anything; else build the payload (`null` payload aborts with
`null`); else create the comment, best-effort attach reactions, and return
the new pair. -/
def createNewComment (thread : LBThread) (cordData : CordData)
    (reactionsOf : String → List CordReaction) (message : CordMessage)
    (s : LBState) : Option ThreadCommentMetadata × LBState :=
  match getExistingThreadComment s thread message with
  | some existingComment => (some ⟨message.id, existingComment.id⟩, s)
  | none =>
    match toCreateCommentData message cordData with
    | none => (none, s)
    | some _commentData =>
      let commentId := "comment-" ++ toString s.nextCommentId
      let comment : LBComment := ⟨commentId, thread.roomId, thread.id⟩
      let s1 := { s with
        comments := s.comments ++ [comment]
        nextCommentId := s.nextCommentId + 1
        createCommentCalls := s.createCommentCalls + 1 }
      let s2 := addReactionsToComment cordData reactionsOf message.id comment s1
      (some ⟨message.id, commentId⟩, s2)

/-- The `Promise.all(messages.map(createNewComment(thread, cordData)))` loop
(used both for new threads and for `fixExistingThreadsMissingComments`).
The concurrent interleaving is serialized in item order; the per-item results
and counters do not depend on it because the operations touch disjoint fresh
ids. -/
def createNewComments (thread : LBThread) (cordData : CordData)
    (reactionsOf : String → List CordReaction) :
    List CordMessage → LBState → List (Option ThreadCommentMetadata) × LBState
  | [], s => ([], s)
  | m :: ms, s =>
    let (r, s1) := createNewComment thread cordData reactionsOf m s
    let (rs, s2) := createNewComments thread cordData reactionsOf ms s1
    (r :: rs, s2)

/-- Function `addCommmetsMetadataToThread` from `LiveblocksMigrationHandler.ts` lines
260-307: merge the new pairs over the pairs parsed from the passed-in thread
snapshot and persist via `editThreadMetadata`. -/
def addCommmetsMetadataToThread (thread : LBThread)
    (commentsMetadata : ThreadCommentsMetadata) (s : LBState) : LBState :=
  let merged := mergeCommentPairs thread.messageToCommentPairs commentsMetadata
  { s with
    editThreadMetadataCalls := s.editThreadMetadataCalls + 1
    threads := s.threads.map fun t =>
      if t.id == thread.id && t.roomId == thread.roomId then
        { t with messageToCommentPairs := merged }
      else t }

/-- A destination room together with its fetched threads
(`RoomWithThreads`). -/
structure RoomWithThreads where
  id : String
  threads : List LBThread
  deriving DecidableEq, Repr

/-- The result shape of `createNewThreadWithComments`: the source returns
`{cordThreadId}` on abandonment and
`{cordThreadId, threadId, commentsMetadata}` on success. -/
structure CreateThreadResult where
  cordThreadId : String
  threadId : Option String
  commentsMetadata : Option ThreadCommentsMetadata
  deriving DecidableEq, Repr

/-- Function `createNewThreadWithComments` from `LiveblocksMigrationHandler.ts` lines
309-462.  Filter the source messages of this thread to those with a truthy
author `sourceID`, sort by timestamp descending (stable), and return
immediately when none remain.  Otherwise create the destination thread with
the earliest... (source: most recent first, first of the sorted list) message
as opening comment, attach its reactions, optionally mark the thread
resolved, create the remaining messages as comments, and persist the merged
ledger.  `threadLocation` models the `PageEntity` lookup of
`getCordThreadMetadata`; the thread create is modeled as succeeding with a
fresh id (the 409-reuse and error catch-arms handle remote failures that the
claims on this function do not exercise). -/
def createNewThreadWithComments (cordData : CordData)
    (reactionsOf : String → List CordReaction)
    (threadLocation : String → Location) (room : RoomWithThreads)
    (cordThread : CordThread) (s : LBState) : CreateThreadResult × LBState :=
  let cordMessages :=
    (cordData.messages.filter fun m =>
      m.threadID == cordThread.id && truthyStr m.sourceID).mergeSort
      fun a b => decide (b.timestamp ≤ a.timestamp)
  match cordMessages with
  | [] => ({ cordThreadId := cordThread.id, threadId := none,
             commentsMetadata := none }, s)
  | firstMessage :: messages =>
    match toCreateCommentData firstMessage cordData with
    | none =>
      ({ cordThreadId := cordThread.id, threadId := none,
         commentsMetadata := none }, s)
    | some _threadComment =>
      let _location := threadLocation cordThread.id
      let threadId := "thread-" ++ toString s.nextThreadId
      let firstCommentId := "comment-" ++ toString s.nextCommentId
      let thread : LBThread :=
        { id := threadId, roomId := room.id,
          cordThreadId := some cordThread.id, messageToCommentPairs := [] }
      let firstComment : LBComment :=
        { id := firstCommentId, roomId := room.id, threadId := threadId }
      let s1 := { s with
        threads := s.threads ++ [thread]
        comments := s.comments ++ [firstComment]
        nextThreadId := s.nextThreadId + 1
        nextCommentId := s.nextCommentId + 1
        createThreadCalls := s.createThreadCalls + 1 }
      let commentsMetadata0 : ThreadCommentsMetadata :=
        [⟨firstMessage.id, firstCommentId⟩]
      let s2 := addReactionsToComment cordData reactionsOf firstMessage.id
        firstComment s1
      let resolverUserId := getExternalUserId cordData cordThread.resolverUserID
      let s3 :=
        if cordThread.resolvedTimestamp.isSome && truthyStr resolverUserId then
          { s2 with markResolvedCalls := s2.markResolvedCalls + 1 }
        else s2
      let (comments, s4) := createNewComments thread cordData reactionsOf messages s3
      let createdComments := comments.filterMap id
      let commentsMetadata := commentsMetadata0 ++ createdComments
      let s5 := addCommmetsMetadataToThread thread commentsMetadata s4
      ({ cordThreadId := cordThread.id, threadId := some threadId,
         commentsMetadata := some commentsMetadata }, s5)

/-! ### Room reconciler (`createOrUpdateRooms`, `createRoom`, `updateRoom`) -/

/-- Stringification of a location value (`value.toString()`). -/
def locValToString : LocVal → String
  | .str v => v
  | .num n => toString n
  | .bool b => if b then "true" else "false"

/-- The room parameters built by `getRoomParams`
(`LiveblocksMigrationHandler.ts` lines 651-674): `defaultAccesses` is always
empty and write access always goes to the fixed `internal` group plus the
org-scoped group recorded here; the metadata is the flattened location with
stringified values. -/
structure RoomParams where
  clientGroupId : String
  metadata : List (String × String)
  deriving DecidableEq, Repr

/-- Function `getRoomParams(cordOrg, location)`. -/
def getRoomParams (cordOrg : CordOrg) (location : Location) : RoomParams :=
  { clientGroupId := "client_" ++ cordOrg.id
    metadata := location.map fun e => (e.1, locValToString e.2) }

/-- Liveblocks room store plus the trace of issued create / update calls. -/
structure RoomsState where
  rooms : List (String × RoomParams)
  createRoomCalls : List String
  updateRoomCalls : List String
  deriving DecidableEq, Repr

/-- Call `liveblocks.createRoom`: 409 conflict when the id is taken, otherwise the
room is stored. -/
def lbCreateRoom (s : RoomsState) (roomId : String) (params : RoomParams) :
    Except Nat Unit × RoomsState :=
  let s1 := { s with createRoomCalls := s.createRoomCalls ++ [roomId] }
  if (s.rooms.find? fun e => e.1 == roomId).isSome then (.error 409, s1)
  else (.ok (), { s1 with rooms := s1.rooms ++ [(roomId, params)] })

/-- Call `liveblocks.updateRoom`: 404 when the id is unknown, otherwise the stored
params are replaced. -/
def lbUpdateRoom (s : RoomsState) (roomId : String) (params : RoomParams) :
    Except Nat Unit × RoomsState :=
  let s1 := { s with updateRoomCalls := s.updateRoomCalls ++ [roomId] }
  if (s.rooms.find? fun e => e.1 == roomId).isSome then
    (.ok (), { s1 with rooms := s1.rooms.map fun e =>
      if e.1 == roomId then (e.1, params) else e })
  else (.error 404, s1)

/-- Function `createRoom` from `LiveblocksMigrationHandler.ts` lines 676-713: issue
the create; on a 409 conflict fall back to `updateRoom` with the same
parameters; other errors give `null` (logged). -/
def createRoom (roomId : String) (params : RoomParams) (s : RoomsState) :
    Option String × RoomsState :=
  match lbCreateRoom s roomId params with
  | (.ok _, s1) => (some roomId, s1)
  | (.error status, s1) =>
    if status == 409 then
      match lbUpdateRoom s1 roomId params with
      | (.ok _, s2) => (some roomId, s2)
      | (.error _, s2) => (none, s2)
    else (none, s1)

/-- Function `updateRoom` from `LiveblocksMigrationHandler.ts` lines 715-739: issue
the update; errors give `null` (logged). -/
def updateRoom (roomId : String) (params : RoomParams) (s : RoomsState) :
    Option String × RoomsState :=
  match lbUpdateRoom s roomId params with
  | (.ok _, s1) => (some roomId, s1)
  | (.error _, s1) => (none, s1)

/-- The per-group body of `createOrUpdateRooms`
(`LiveblocksMigrationHandler.ts` lines 782-816): resolve the group's
organization from its threads (first truthy org id); skip the group when no
org with a truthy `externalID` resolves; when a destination room already
exists in the pre-fetched snapshot, issue an update; then — unconditionally —
issue `createRoom`.  Returns the pushed `(createdRooms, updatedRooms)`
entries (as room ids). -/
def processRoomGroup (cordData : CordData) (existingRoomIds : List String)
    (roomId : String) (threadIds : List String) (location : Location)
    (s : RoomsState) : (List String × List String) × RoomsState :=
  let threads := cordData.threads.filter fun t => threadIds.contains t.id
  let threadsOrgIds := (threads.map fun t => t.orgID).filter fun oid => !(oid == "")
  match threadsOrgIds with
  | [] => (([], []), s)
  | orgId :: _ =>
    match cordData.orgs.find? fun o => o.id == orgId with
    | none => (([], []), s)
    | some org =>
      if ¬ truthyStr org.externalID then (([], []), s)
      else
        let roomParams := getRoomParams org location
        let (updatedRooms, s1) :=
          if existingRoomIds.contains roomId then
            match updateRoom roomId roomParams s with
            | (some rid, s') => ([rid], s')
            | (none, s') => ([], s')
          else ([], s)
        match createRoom roomId roomParams s1 with
        | (some rid, s2) => (([rid], updatedRooms), s2)
        | (none, s2) => (([], updatedRooms), s2)

/-! ### Concrete scenarios for the comment-reconciliation claims -/

/-- Source snapshot for the resumability scenario: one resolvable user. -/
def resumeCordData : CordData :=
  { orgs := [], users := [⟨"u1", some "ext-u1"⟩], threads := [], messages := [],
    emailNotifications := [] }

/-- A destination thread whose ledger already covers messages m1 and m2. -/
def resumeThread : LBThread :=
  { id := "t1", roomId := "r1", cordThreadId := some "ct1",
    messageToCommentPairs := [⟨"m1", "c1"⟩, ⟨"m2", "c2"⟩] }

def resumeMsg1 : CordMessage :=
  { id := "m1", threadID := "ct1", sourceID := some "u1", timestamp := 1,
    content := [] }

def resumeMsg2 : CordMessage :=
  { id := "m2", threadID := "ct1", sourceID := some "u1", timestamp := 2,
    content := [] }

def resumeMsg3 : CordMessage :=
  { id := "m3", threadID := "ct1", sourceID := some "u1", timestamp := 3,
    content := [] }

/-- Destination state where the ledgered comments c1 and c2 still exist. -/
def resumeState : LBState :=
  { comments := [⟨"c1", "r1", "t1"⟩, ⟨"c2", "r1", "t1"⟩],
    threads := [resumeThread], nextCommentId := 0, nextThreadId := 0,
    createCommentCalls := 0, createThreadCalls := 0, addReactionCalls := 0,
    editThreadMetadataCalls := 0, markResolvedCalls := 0,
    reactionErrorLogs := 0 }

/-- No reactions exist for any message. -/
def noReactions : String → List CordReaction := fun _ => []

/-- Source snapshot with no users at all: every author is unresolvable. -/
def emptyCordData : CordData :=
  { orgs := [], users := [], threads := [], messages := [],
    emailNotifications := [] }

/-! ### Frame lemmas for the reaction attachment -/

/-- Reaction store for C8's concrete scenario: message m3 has exactly one
reaction, whose author id is `null`. -/
def nullAuthorReactions : String → List CordReaction := fun mid =>
  if mid == "m3" then [⟨"r1", none, "👍", 0⟩] else []

/-! ### C6: room reconciliation scenarios and theorems -/

/-- Source snapshot for the room claims: one thread in a resolvable org. -/
def roomCordData : CordData :=
  { orgs := [⟨"o1", some "ext-o1"⟩], users := [],
    threads := [⟨"t1", "o1", 0, none, none⟩], messages := [],
    emailNotifications := [] }

/-- A location for the room claims. -/
def roomLocation : Location := [("page", .str "p1")]

/-- Destination store that already holds the derived room. -/
def roomStateExisting : RoomsState :=
  { rooms := [("room1", ⟨"client_old", []⟩)], createRoomCalls := [],
    updateRoomCalls := [] }

/-! ### Theorems -/

/-- C2: the merge operation returns exactly the existing pairs whose
source-message-id does not appear among the new pairs, in original order,
followed by all the new pairs in their order; in particular
`mergeLedger([{m1,c1},{m2,c2}], [{m2,c2b}]) = [{m1,c1},{m2,c2b}]`. -/
theorem mergeCommentPairs_spec :
    (∀ existingPairs commentsMetadata : ThreadCommentsMetadata,
      mergeCommentPairs existingPairs commentsMetadata =
        mergeLedgerSpec existingPairs commentsMetadata) ∧
    mergeCommentPairs [⟨"m1", "c1"⟩, ⟨"m2", "c2"⟩] [⟨"m2", "c2b"⟩] =
      [⟨"m1", "c1"⟩, ⟨"m2", "c2b"⟩] := by
  constructor
  · intro existingPairs commentsMetadata
    unfold mergeCommentPairs mergeLedgerSpec
    congr 1
    apply List.filter_congr
    intro p _
    rw [Bool.eq_iff_iff]
    simp [Option.isNone_iff_eq_none, List.find?_eq_none]
  · decide

/-- C3: the ledger parser is total (never throws — it is a Lean function) and
returns `[]` when the input is absent, not a string, or fails to parse as
JSON; inputs `undefined`, `123`, `"not json"`, `"[1,2,3]"` all yield `[]`;
array elements lacking either the `cordMessageId` or the
`liveblocksCommentId` field are dropped, so `'[{"cordMessageId":"m1"}]'`
yields `[]`, while `'[{"cordMessageId":"m1","liveblocksCommentId":"c1"}]'`
yields the one-element list with that pair. -/
theorem parseThreadCommentsMetadata_total_and_validating :
    (parseThreadCommentsMetadata .undef = []) ∧
    (∀ n, parseThreadCommentsMetadata (.num n) = []) ∧
    (∀ b, parseThreadCommentsMetadata (.bool b) = []) ∧
    (∀ s, parseJson s = none → parseThreadCommentsMetadata (.str s) = []) ∧
    (∀ fuel fields, hasField fields "cordMessageId" = false ∨
        hasField fields "liveblocksCommentId" = false →
      parseThreadCommentMetadata fuel (.obj fields) = none) ∧
    parseThreadCommentsMetadata (.num 123) = [] ∧
    parseThreadCommentsMetadata (.str "not json") = [] ∧
    parseThreadCommentsMetadata (.str "[1,2,3]") = [] ∧
    parseThreadCommentsMetadata (.str "[\x7b\"cordMessageId\":\"m1\"\x7d]") = [] ∧
    parseThreadCommentsMetadata
        (.str "[\x7b\"cordMessageId\":\"m1\",\"liveblocksCommentId\":\"c1\"\x7d]") =
      [.obj [("cordMessageId", .str "m1"), ("liveblocksCommentId", .str "c1")]] := by
  refine ⟨rfl, fun n => rfl, fun b => rfl, ?_, ?_, rfl, ?_, ?_, ?_, ?_⟩
  · intro s h
    simp [parseThreadCommentsMetadata, h]
  · intro fuel fields h
    cases fuel with
    | zero => rfl
    | succ fuel =>
      rcases h with h | h <;> simp [parseThreadCommentMetadata, falsy, h]
  · rfl
  · rfl
  · rfl
  · rfl

/-- Witness for C3's hypotheses at concrete inputs: `"not json"` fails
`JSON.parse` so the ledger is `[]`, and an object missing
`liveblocksCommentId` is dropped by the element validator. -/
theorem parseThreadCommentsMetadata_total_and_validating_witness :
    parseThreadCommentsMetadata (.str "not json") = [] ∧
    parseThreadCommentMetadata 1 (.obj [("cordMessageId", .str "m1")]) = none :=
  ⟨parseThreadCommentsMetadata_total_and_validating.2.2.2.1 "not json" rfl,
   parseThreadCommentsMetadata_total_and_validating.2.2.2.2.1 1
     [("cordMessageId", .str "m1")] (Or.inr rfl)⟩

/-- C4 counterexample: reordering a location's entries changes the room key.
`JSON.stringify` serializes entries in insertion order — there is no
canonicalization — so the permuted location hashes differently. -/
theorem getRoomId_not_permutation_invariant :
    getRoomId [("a", .str "1"), ("b", .str "2")] ≠
      getRoomId [("b", .str "2"), ("a", .str "1")] := by
  set_option maxRecDepth 100000 in decide

/-- C4 amended: `getRoomId` is deterministic — it is a pure function of the
serialized location, so locations with the same serialized form (in
particular, repeated calls on the same location) always yield the same room
key; but it is not invariant under reordering the location's entries. -/
theorem getRoomId_deterministic (l₁ l₂ : Location)
    (h : stringifyLocation l₁ = stringifyLocation l₂) :
    getRoomId l₁ = getRoomId l₂ := by
  unfold getRoomId
  rw [h]

/-- Witness for C4's amended theorem at a concrete location. -/
theorem getRoomId_deterministic_witness :
    getRoomId [("a", .str "1")] = getRoomId [("a", .str "1")] :=
  getRoomId_deterministic [("a", .str "1")] [("a", .str "1")] rfl

theorem chunksOf_nil {n : Nat} : ∀ fuel, chunksOf n fuel ([] : List α) = [] := by
  intro fuel
  cases fuel <;> rfl

theorem chunksOf_flatten {n : Nat} (hn : 0 < n) :
    ∀ fuel (l : List α), l.length ≤ fuel → (chunksOf n fuel l).flatten = l := by
  intro fuel
  induction fuel with
  | zero =>
    intro l h
    have : l = [] := List.eq_nil_of_length_eq_zero (Nat.le_zero.mp h)
    simp [this, chunksOf]
  | succ fuel ih =>
    intro l h
    cases l with
    | nil => simp [chunksOf]
    | cons a t =>
      show (List.take n (a :: t) :: chunksOf n fuel (List.drop n (a :: t))).flatten = a :: t
      rw [List.flatten_cons, ih (List.drop n (a :: t)) (by simp at h ⊢; omega)]
      exact List.take_append_drop n (a :: t)

theorem chunksOf_length {n : Nat} (hn : 0 < n) :
    ∀ fuel (l : List α), l.length ≤ fuel →
      (chunksOf n fuel l).length = (l.length + n - 1) / n := by
  intro fuel
  induction fuel with
  | zero =>
    intro l h
    have : l = [] := List.eq_nil_of_length_eq_zero (Nat.le_zero.mp h)
    subst this
    simp [chunksOf, Nat.div_eq_of_lt (show n - 1 < n by omega)]
  | succ fuel ih =>
    intro l h
    cases l with
    | nil => simp [chunksOf, Nat.div_eq_of_lt (show n - 1 < n by omega)]
    | cons a t =>
      show (List.take n (a :: t) :: chunksOf n fuel (List.drop n (a :: t))).length =
        ((a :: t).length + n - 1) / n
      rw [List.length_cons, ih (List.drop n (a :: t)) (by simp at h ⊢; omega)]
      simp only [List.length_drop, List.length_cons]
      have h1 : t.length + 1 + n - 1 = t.length + n := by omega
      rw [h1, Nat.add_div_right _ hn]
      rcases Nat.le_total n (t.length + 1) with hc | hc
      · have h2 : t.length + 1 - n + n - 1 = t.length := by omega
        rw [h2]
      · have h2 : t.length + 1 - n + n - 1 = n - 1 := by omega
        rw [h2, Nat.div_eq_of_lt (show n - 1 < n by omega),
          Nat.div_eq_of_lt (show t.length < n by omega)]

theorem chunksOf_batch_le {n : Nat} :
    ∀ fuel (l : List α), ∀ b ∈ chunksOf n fuel l, b.length ≤ n := by
  intro fuel
  induction fuel with
  | zero => intro l b hb; simp [chunksOf] at hb
  | succ fuel ih =>
    intro l b hb
    cases l with
    | nil => simp [chunksOf] at hb
    | cons a t =>
      simp only [chunksOf] at hb
      rcases List.mem_cons.mp hb with hb | hb
      · simp [hb, List.length_take]
      · exact ih _ _ hb

theorem splitGo_eq {n : Nat} (hn : 0 < n) :
    ∀ fuel (arr : List α) acc, arr.length ≤ fuel →
      splitGo n fuel arr acc = (acc.reverse ++ chunksOf n fuel arr, []) := by
  intro fuel
  induction fuel with
  | zero =>
    intro arr acc h
    have : arr = [] := List.eq_nil_of_length_eq_zero (Nat.le_zero.mp h)
    simp [this, splitGo, chunksOf]
  | succ fuel ih =>
    intro arr acc h
    cases arr with
    | nil => simp [splitGo, chunksOf]
    | cons a t =>
      show splitGo n fuel (List.drop n (a :: t)) (List.take n (a :: t) :: acc) = _
      rw [ih (List.drop n (a :: t)) _ (by simp at h ⊢; omega)]
      show _ = (acc.reverse ++ (List.take n (a :: t) :: chunksOf n fuel (List.drop n (a :: t))), [])
      simp

/-- Lemma: `split` with a positive batch size drains the caller's array and returns
the `take`/`drop` chunking. -/
theorem split_eq {n : Nat} (hn : 0 < n) (arr : List α) :
    split arr n = (chunksOf n arr.length arr, []) := by
  have := splitGo_eq hn arr.length arr [] le_rfl
  simpa [split] using this

theorem map_mapIdx_comp (l : List α) (f : Nat → α → β) (g : β → γ) :
    (l.mapIdx f).map g = l.mapIdx fun i a => g (f i a) := by
  induction l generalizing f with
  | nil => rfl
  | cons a t ih => simp [List.mapIdx_cons, ih]

theorem runBatches_chunks_ok {n : Nat} (hn : 0 < n)
    (op : α → Nat → List α → Except ε ρ)
    (hok : ∀ a i, errOf (op a i ([] : List α)) = none) :
    ∀ fuel (l : List α) k, l.length ≤ fuel →
      runBatches op [] n (chunksOf n fuel l) k =
        (l.mapIdx fun i a => (op a (k * n + i) []).toOption, none) := by
  intro fuel
  induction fuel with
  | zero =>
    intro l k h
    have : l = [] := List.eq_nil_of_length_eq_zero (Nat.le_zero.mp h)
    simp [this, chunksOf, runBatches]
  | succ fuel ih =>
    intro l k h
    cases l with
    | nil => simp [chunksOf, runBatches]
    | cons a t =>
      show runBatches op [] n
        (List.take n (a :: t) :: chunksOf n fuel (List.drop n (a :: t))) k = _
      rw [runBatches, ih (List.drop n (a :: t)) (k + 1) (by simp at h ⊢; omega)]
      have herr : (List.filterMap errOf ((List.take n (a :: t)).mapIdx fun i item =>
          op item (k * n + i) [])) = [] := by
        rw [List.filterMap_eq_nil_iff]
        intro x hx
        rcases List.exists_of_mem_mapIdx hx with ⟨i, hi, hxeq⟩
        rw [← hxeq]
        exact hok _ _
      rw [herr, map_mapIdx_comp]
      dsimp only
      have hsplit : (a :: t) = List.take n (a :: t) ++ List.drop n (a :: t) :=
        (List.take_append_drop n (a :: t)).symm
      conv_rhs => rw [hsplit]
      rw [List.mapIdx_append]
      rcases Nat.le_total n (t.length + 1) with hc | hc
      · have hlen : (List.take n (a :: t)).length = n := by
          simp only [List.length_take, List.length_cons]
          omega
        rw [hlen]
        have hfun : (List.drop n (a :: t)).mapIdx
            (fun i b => (op b ((k + 1) * n + i) []).toOption) =
            (List.drop n (a :: t)).mapIdx
            (fun i b => (op b (k * n + (i + n)) []).toOption) := by
          congr 1
          funext i b
          have harith : (k + 1) * n + i = k * n + (i + n) := by ring
          rw [harith]
        rw [hfun]
      · have hdrop : List.drop n (a :: t) = [] := by
          apply List.drop_eq_nil_of_le
          simp
          omega
        rw [hdrop]
        simp

theorem runBatches_emptied_eq {α ε ρ : Type} (op : α → Nat → List α → Except ε ρ)
    (n : Nat) :
    ∀ bs k, runBatches (fun a i _ => op a i ([] : List α)) [] n bs k =
      runBatches op [] n bs k := by
  intro bs
  induction bs with
  | nil => intro k; rfl
  | cons b rest ih => intro k; simp [runBatches, ih]

/-- C5: with a positive width `W`, the executor partitions the `N` items into
`ceil(N/W)` sequential batches of size at most `W`, and — when no operation
rejects — resolves with `N` per-item results in original item order, each slot
holding exactly what that item's operation resolved (so an operation that
handles its own failure by resolving `null` leaves only its own slot absent
and does not abort the run).  Concretely, 7 items at width 3 give batches of
sizes `[3,3,1]`, and when item #5's operation fails its slot alone is `null`
while the other six results are present. -/
theorem throttledPromises_spec {α ε ρ : Type}
    (op : α → Nat → List α → Except ε ρ) (items : List α) (n d : Nat) (hn : 0 < n)
    (hok : ∀ a i, errOf (op a i ([] : List α)) = none) :
    ((split items n).1.length = (items.length + n - 1) / n ∧
      (∀ b ∈ (split items n).1, b.length ≤ n) ∧
      (split items n).1.flatten = items) ∧
    throttledPromises op items n d =
      .ok (items.mapIdx fun i a => (op a i ([] : List α)).toOption) ∧
    ((split [0, 1, 2, 3, 4, 5, 6] 3).1.map List.length = [3, 3, 1] ∧
      throttledPromises opItem5Fails [0, 1, 2, 3, 4, 5, 6] 3 0 =
        .ok [some (some 10), some (some 11), some (some 12), some (some 13),
          some none, some (some 15), some (some 16)]) := by
  refine ⟨⟨?_, ?_, ?_⟩, ?_, by decide, by rfl⟩
  · rw [split_eq hn]
    exact chunksOf_length hn items.length items le_rfl
  · rw [split_eq hn]
    exact chunksOf_batch_le items.length items
  · rw [split_eq hn]
    exact chunksOf_flatten hn items.length items le_rfl
  · unfold throttledPromises
    rw [split_eq hn]
    dsimp only
    rw [runBatches_chunks_ok hn op hok items.length items 0 le_rfl]
    dsimp only
    have hfun : (items.mapIdx fun i a => (op a (0 * n + i) []).toOption) =
        items.mapIdx fun i a => (op a i []).toOption := by
      congr 1
      funext i a
      rw [Nat.zero_mul, Nat.zero_add]
    rw [hfun]

/-- Witness for C5 at the concrete 7-item scenario (width 3, delay 0): the
batches flatten back to the items in order and the executor resolves. -/
theorem throttledPromises_spec_witness :
    (split [0, 1, 2, 3, 4, 5, 6] 3).1.flatten = [0, 1, 2, 3, 4, 5, 6] ∧
    throttledPromises opItem5Fails [0, 1, 2, 3, 4, 5, 6] 3 0 =
      .ok ([0, 1, 2, 3, 4, 5, 6].mapIdx fun i a =>
        (opItem5Fails a i ([] : List Nat)).toOption) :=
  ⟨(throttledPromises_spec opItem5Fails [0, 1, 2, 3, 4, 5, 6] 3 0 (by decide)
      fun a i => rfl).1.2.2,
   (throttledPromises_spec opItem5Fails [0, 1, 2, 3, 4, 5, 6] 3 0 (by decide)
      fun a i => rfl).2.1⟩

/-- C10: the batch executor destructively consumes the caller's items array:
`split` drains it in place via `splice`, so once batching has run the
original array is empty, and the array passed to every per-item operation as
its third argument is that drained (empty) array rather than one holding the
original items. -/
theorem throttledPromises_drains_items {α ε ρ : Type}
    (op : α → Nat → List α → Except ε ρ) (arr items : List α) (n d : Nat)
    (hn : 0 < n) :
    (split arr n).2 = [] ∧
    throttledPromises op items n d =
      throttledPromises (fun a i _ => op a i ([] : List α)) items n d := by
  constructor
  · rw [split_eq hn]
  · unfold throttledPromises
    rw [split_eq hn]
    dsimp only
    rw [runBatches_emptied_eq]

/-- Witness for C10 at a concrete call: a 3-element array at width 2 is left
empty by `split`. -/
theorem throttledPromises_drains_items_witness :
    (split [1, 2, 3] 2).2 = ([] : List Nat) :=
  (throttledPromises_drains_items (fun a _ _ => (Except.ok a : Except Unit Nat))
    [1, 2, 3] [1, 2, 3] 2 0 (by decide)).1

theorem reactionFold_frame (cordData : CordData) :
    ∀ (l : List CordReaction) (s : LBState), ∃ a e,
      l.foldl (reactionStep cordData) s =
        { s with addReactionCalls := a, reactionErrorLogs := e } := by
  intro l
  induction l with
  | nil => intro s; exact ⟨s.addReactionCalls, s.reactionErrorLogs, rfl⟩
  | cons r rs ih =>
    intro s
    rcases ih (reactionStep cordData s r) with ⟨a, e, h⟩
    refine ⟨a, e, ?_⟩
    rw [List.foldl_cons, h]
    unfold reactionStep
    split <;> rfl

theorem addReactionsToComment_frame (cordData : CordData)
    (reactionsOf : String → List CordReaction) (cordMessageId : String)
    (comment : LBComment) (s : LBState) : ∃ a e,
      addReactionsToComment cordData reactionsOf cordMessageId comment s =
        { s with addReactionCalls := a, reactionErrorLogs := e } := by
  unfold addReactionsToComment
  dsimp only
  split
  · split
    · exact ⟨s.addReactionCalls, s.reactionErrorLogs, rfl⟩
    · exact ⟨s.addReactionCalls, s.reactionErrorLogs + 1, rfl⟩
  · exact reactionFold_frame cordData _ s

theorem reactionFold_unresolvable (cordData : CordData) :
    ∀ (l : List CordReaction) (s : LBState),
      (∀ r ∈ l, truthyStr (getExternalUserId cordData r.userID) = false) →
      l.foldl (reactionStep cordData) s =
        { s with reactionErrorLogs := s.reactionErrorLogs + l.length } := by
  intro l
  induction l with
  | nil => intro s _; rfl
  | cons r rs ih =>
    intro s h
    rw [List.foldl_cons, ih _ (fun x hx => h x (List.mem_cons_of_mem _ hx))]
    unfold reactionStep
    rw [h r (List.mem_cons_self _ _)]
    simp only [Bool.false_eq_true, if_false]
    have harith : s.reactionErrorLogs + 1 + rs.length =
        s.reactionErrorLogs + (rs.length + 1) := by omega
    simp [harith]

/-- C1: if the message's id has a pair in the thread's current ledger and
fetching the destination comment by the paired id succeeds, `createNewComment`
returns the existing pair and changes nothing (no comment-create call); if
the fetch reports not-found it falls through to creating a new comment
(one comment-create call, returning the fresh pair).  Consequently, on a
thread whose ledger already covers {m1,m2} out of source messages
{m1,m2,m3}, re-running comment reconciliation issues exactly one
comment-create call (for m3), and merging the returned pairs into the
ledger leaves m1/m2's pairs untouched. -/
theorem createNewComment_ledger_check :
    (∀ (s : LBState) (thread : LBThread) (cordData : CordData)
        (reactionsOf : String → List CordReaction) (message : CordMessage)
        (pair : ThreadCommentMetadata) (c : LBComment),
      thread.messageToCommentPairs.find?
          (fun p => p.cordMessageId == message.id) = some pair →
      (pair.liveblocksCommentId == "") = false →
      lbGetComment s thread.roomId thread.id pair.liveblocksCommentId = some c →
      createNewComment thread cordData reactionsOf message s =
        (some ⟨message.id, pair.liveblocksCommentId⟩, s)) ∧
    (∀ (s : LBState) (thread : LBThread) (cordData : CordData)
        (reactionsOf : String → List CordReaction) (message : CordMessage)
        (pair : ThreadCommentMetadata) (data : CreateCommentData),
      thread.messageToCommentPairs.find?
          (fun p => p.cordMessageId == message.id) = some pair →
      lbGetComment s thread.roomId thread.id pair.liveblocksCommentId = none →
      toCreateCommentData message cordData = some data →
      (createNewComment thread cordData reactionsOf message s).1 =
        some ⟨message.id, "comment-" ++ toString s.nextCommentId⟩ ∧
      (createNewComment thread cordData reactionsOf message s).2.createCommentCalls =
        s.createCommentCalls + 1) ∧
    ((createNewComments resumeThread resumeCordData noReactions
        [resumeMsg1, resumeMsg2, resumeMsg3] resumeState).1 =
      [some ⟨"m1", "c1"⟩, some ⟨"m2", "c2"⟩, some ⟨"m3", "comment-0"⟩] ∧
      (createNewComments resumeThread resumeCordData noReactions
        [resumeMsg1, resumeMsg2, resumeMsg3] resumeState).2.createCommentCalls = 1 ∧
      mergeCommentPairs resumeThread.messageToCommentPairs
        ((createNewComments resumeThread resumeCordData noReactions
          [resumeMsg1, resumeMsg2, resumeMsg3] resumeState).1.filterMap id) =
        [⟨"m1", "c1"⟩, ⟨"m2", "c2"⟩, ⟨"m3", "comment-0"⟩]) := by
  refine ⟨?_, ?_, by decide, by decide, by decide⟩
  · intro s thread cordData reactionsOf message pair c hfind hne hget
    have hcid : c.id = pair.liveblocksCommentId := by
      unfold lbGetComment at hget
      have := List.find?_some hget
      simp only [Bool.and_eq_true, beq_iff_eq] at this
      exact this.1.1
    unfold createNewComment getExistingThreadComment
    rw [hfind]
    dsimp only
    rw [hne]
    simp only [Bool.false_eq_true, if_false, hget]
    rw [hcid]
  · intro s thread cordData reactionsOf message pair data hfind hget htoC
    have hmiss : getExistingThreadComment s thread message = none := by
      unfold getExistingThreadComment
      rw [hfind]
      rcases hid : pair.liveblocksCommentId == "" with _ | _
      · simp [hid, hget]
      · simp [hid]
    unfold createNewComment
    rw [hmiss, htoC]
    dsimp only
    rcases addReactionsToComment_frame cordData reactionsOf message.id
      ⟨"comment-" ++ toString s.nextCommentId, thread.roomId, thread.id⟩
      { s with
        comments := s.comments ++
          [⟨"comment-" ++ toString s.nextCommentId, thread.roomId, thread.id⟩]
        nextCommentId := s.nextCommentId + 1
        createCommentCalls := s.createCommentCalls + 1 } with ⟨a, e, hframe⟩
    rw [hframe]
    exact ⟨rfl, rfl⟩

/-- Witness for C1 at the resumability scenario: message m1's ledger pair is
live, so `createNewComment` returns the existing pair and leaves the state
unchanged. -/
theorem createNewComment_ledger_check_witness :
    createNewComment resumeThread resumeCordData noReactions resumeMsg1
      resumeState = (some ⟨"m1", "c1"⟩, resumeState) :=
  createNewComment_ledger_check.1 resumeState resumeThread resumeCordData
    noReactions resumeMsg1 ⟨"m1", "c1"⟩ ⟨"c1", "r1", "t1"⟩ (by decide)
    (by decide) (by decide)

/-- C9: a source thread whose filtered message list is empty (no message of
the thread has a truthy author `sourceID`) makes `createNewThreadWithComments`
return `{cordThreadId}` with the state untouched: no thread-create call, no
ledger edit, nothing. -/
theorem createNewThreadWithComments_no_eligible_messages
    (cordData : CordData) (reactionsOf : String → List CordReaction)
    (threadLocation : String → Location) (room : RoomWithThreads)
    (cordThread : CordThread) (s : LBState)
    (h : cordData.messages.filter
      (fun m => m.threadID == cordThread.id && truthyStr m.sourceID) = []) :
    createNewThreadWithComments cordData reactionsOf threadLocation room
      cordThread s =
      ({ cordThreadId := cordThread.id, threadId := none,
         commentsMetadata := none }, s) := by
  unfold createNewThreadWithComments
  rw [h, List.mergeSort_nil]

/-- Witness for C9: a thread with no messages at all leaves the resumability
state untouched. -/
theorem createNewThreadWithComments_no_eligible_messages_witness :
    createNewThreadWithComments emptyCordData noReactions (fun _ => [])
      ⟨"roomX", []⟩ ⟨"ct-empty", "o1", 0, none, none⟩ resumeState =
      ({ cordThreadId := "ct-empty", threadId := none,
         commentsMetadata := none }, resumeState) :=
  createNewThreadWithComments_no_eligible_messages emptyCordData noReactions
    (fun _ => []) ⟨"roomX", []⟩ ⟨"ct-empty", "o1", 0, none, none⟩ resumeState
    (by rfl)

/-- C7 counterexample: message m1's author is unresolvable
(`getExternalUserId` yields `null`), yet `createNewComment` does not return
absent — the message's ledger pair is live, so the existing pair is
returned. -/
theorem createNewComment_unresolvable_author_counterexample :
    getExternalUserId emptyCordData resumeMsg1.sourceID = none ∧
    (createNewComment resumeThread emptyCordData noReactions resumeMsg1
      resumeState).1 = some ⟨"m1", "c1"⟩ ∧
    ¬ (createNewComment resumeThread emptyCordData noReactions resumeMsg1
      resumeState).1 = none := by
  decide

/-- C7 amended: when the message author's destination identity is
unresolvable, `createNewComment` issues no comment-create call and changes no
state at all; it returns the existing pair when the message already has a
live ledger pair, and returns absent otherwise. -/
theorem createNewComment_unresolvable_author_amended
    (thread : LBThread) (cordData : CordData)
    (reactionsOf : String → List CordReaction) (message : CordMessage)
    (s : LBState) (h : getExternalUserId cordData message.sourceID = none) :
    (createNewComment thread cordData reactionsOf message s).2 = s ∧
    (getExistingThreadComment s thread message = none →
      (createNewComment thread cordData reactionsOf message s).1 = none) := by
  have htoC : toCreateCommentData message cordData = none := by
    unfold toCreateCommentData
    rw [h]
    rfl
  rcases hex : getExistingThreadComment s thread message with _ | c
  · unfold createNewComment
    rw [hex, htoC]
    exact ⟨rfl, fun _ => rfl⟩
  · unfold createNewComment
    rw [hex]
    refine ⟨rfl, fun hc => ?_⟩
    exact Option.noConfusion hc

/-- Witness for C7's amended theorem: message m3 has no ledger pair and an
unresolvable author, so the result is absent with the state untouched. -/
theorem createNewComment_unresolvable_author_amended_witness :
    (createNewComment resumeThread emptyCordData noReactions resumeMsg3
      resumeState).2 = resumeState ∧
    (createNewComment resumeThread emptyCordData noReactions resumeMsg3
      resumeState).1 = none :=
  ⟨(createNewComment_unresolvable_author_amended resumeThread emptyCordData
      noReactions resumeMsg3 resumeState (by decide)).1,
   (createNewComment_unresolvable_author_amended resumeThread emptyCordData
      noReactions resumeMsg3 resumeState (by decide)).2 (by decide)⟩

/-- C8: when every reaction of the message lacks a resolvable author (a falsy
`userID`, or an author `getExternalUserId` cannot resolve), reaction
attachment issues zero `addCommentReaction` calls; with no reactions at all
it stays silent, and it logs an error as soon as the list is non-empty; and
the comment-creation procedure still returns the successful pair — reaction
failures never un-create the comment. -/
theorem addReactionsToComment_no_resolvable_authors
    (cordData : CordData) (reactionsOf : String → List CordReaction)
    (cordMessageId : String) (comment : LBComment) (s : LBState)
    (h : ∀ r ∈ reactionsOf cordMessageId, truthyStr r.userID = false ∨
      truthyStr (getExternalUserId cordData r.userID) = false) :
    (addReactionsToComment cordData reactionsOf cordMessageId comment
      s).addReactionCalls = s.addReactionCalls ∧
    (reactionsOf cordMessageId = [] →
      addReactionsToComment cordData reactionsOf cordMessageId comment s = s) ∧
    (reactionsOf cordMessageId ≠ [] →
      s.reactionErrorLogs <
        (addReactionsToComment cordData reactionsOf cordMessageId comment
          s).reactionErrorLogs) ∧
    (∀ (thread : LBThread) (message : CordMessage) (data : CreateCommentData),
      getExistingThreadComment s thread message = none →
      toCreateCommentData message cordData = some data →
      (createNewComment thread cordData reactionsOf message s).1 =
        some ⟨message.id, "comment-" ++ toString s.nextCommentId⟩) := by
  have hvalid : ∀ r ∈ (reactionsOf cordMessageId).filter
      (fun r => truthyStr r.userID),
      truthyStr (getExternalUserId cordData r.userID) = false := by
    intro r hr
    rcases List.mem_filter.mp hr with ⟨hmem, hpr⟩
    rcases h r hmem with h1 | h1
    · rw [hpr] at h1
      exact Bool.noConfusion h1
    · exact h1
  refine ⟨?_, ?_, ?_, ?_⟩
  · unfold addReactionsToComment
    dsimp only
    split
    · split <;> rfl
    · rw [reactionFold_unresolvable cordData _ s hvalid]
  · intro hre
    unfold addReactionsToComment
    dsimp only
    rw [hre]
    rfl
  · intro hre
    unfold addReactionsToComment
    dsimp only
    split
    · split
      · rename_i hempty2
        rw [List.isEmpty_iff] at hempty2
        exact absurd hempty2 hre
      · exact Nat.lt_succ_self _
    · rename_i hempty
      rw [reactionFold_unresolvable cordData _ s hvalid]
      have hpos : 0 < ((reactionsOf cordMessageId).filter
          (fun r => truthyStr r.userID)).length := by
        rcases Nat.eq_zero_or_pos ((reactionsOf cordMessageId).filter
            (fun r => truthyStr r.userID)).length with hz | hp
        · exact absurd (List.isEmpty_iff_length_eq_zero.mpr hz) hempty
        · exact hp
      exact Nat.lt_add_of_pos_right hpos
  · intro thread message data hmiss htoC
    unfold createNewComment
    rw [hmiss, htoC]

/-- Witness for C8 at the concrete scenario: message m3 has one reaction with
a `null` author, so zero reaction-create calls are issued, an error is
logged (the list was non-empty), and creating m3's comment still succeeds. -/
theorem addReactionsToComment_no_resolvable_authors_witness :
    (addReactionsToComment resumeCordData nullAuthorReactions "m3"
      ⟨"cx", "r1", "t1"⟩ resumeState).addReactionCalls =
      resumeState.addReactionCalls ∧
    resumeState.reactionErrorLogs <
      (addReactionsToComment resumeCordData nullAuthorReactions "m3"
        ⟨"cx", "r1", "t1"⟩ resumeState).reactionErrorLogs ∧
    (createNewComment resumeThread resumeCordData nullAuthorReactions
      resumeMsg3 resumeState).1 = some ⟨"m3", "comment-0"⟩ :=
  ⟨(addReactionsToComment_no_resolvable_authors resumeCordData
      nullAuthorReactions "m3" ⟨"cx", "r1", "t1"⟩ resumeState
      (by decide)).1,
   (addReactionsToComment_no_resolvable_authors resumeCordData
      nullAuthorReactions "m3" ⟨"cx", "r1", "t1"⟩ resumeState
      (by decide)).2.2.1 (by decide),
   (addReactionsToComment_no_resolvable_authors resumeCordData
      nullAuthorReactions "m3" ⟨"cx", "r1", "t1"⟩ resumeState
      (by decide)).2.2.2 resumeThread resumeMsg3
      { userId := "ext-u1", createdAt := 3, version := 1, content := [] }
      (by rfl) (by rfl)⟩

/-- C6 counterexample: with the destination room already existing at the
derived key (both in the pre-fetched snapshot and in the store), the room
reconciler still issues a create call — the create is unconditional, so the
claim's "an update (and not a create)" is false.  The trace shows one create
and two updates (the explicit one plus the 409 fallback inside the
create). -/
theorem processRoomGroup_creates_despite_existing_room :
    ((processRoomGroup roomCordData ["room1"] "room1" ["t1"] roomLocation
      roomStateExisting).2.createRoomCalls = ["room1"] ∧
      ¬ (processRoomGroup roomCordData ["room1"] "room1" ["t1"] roomLocation
        roomStateExisting).2.createRoomCalls = []) ∧
    (processRoomGroup roomCordData ["room1"] "room1" ["t1"] roomLocation
      roomStateExisting).2.updateRoomCalls = ["room1", "room1"] := by
  decide

theorem roomUpdateMap_idem (l : List (String × RoomParams)) (roomId : String)
    (params : RoomParams) :
    ((l.map fun e => if e.1 == roomId then (e.1, params) else e).map
      fun e => if e.1 == roomId then (e.1, params) else e) =
      l.map fun e => if e.1 == roomId then (e.1, params) else e := by
  rw [List.map_map]
  apply List.map_congr_left
  intro e _
  by_cases he : e.1 = roomId
  · simp [he]
  · simp [he]

theorem roomUpdateMap_find_isSome (l : List (String × RoomParams))
    (roomId : String) (params : RoomParams) :
    (((l.map fun e => if e.1 == roomId then (e.1, params) else e).find?
      fun e => e.1 == roomId).isSome) =
      ((l.find? fun e => e.1 == roomId).isSome) := by
  have hfun : ((fun (e : String × RoomParams) => e.1 == roomId) ∘
      fun e => if e.1 == roomId then (e.1, params) else e) =
      fun (e : String × RoomParams) => e.1 == roomId := by
    funext e
    by_cases he : e.1 = roomId
    · simp [he]
    · simp [he]
  rw [List.find?_map, hfun]
  simp

/-- C6 amended: the create-conflict fallback is real — `createRoom` on an
id that is already taken issues the create, receives the 409, and falls back
to an update with the same parameters, succeeding; on a free id the create
just succeeds.  At the group level (resolvable organization), an existing
room receives an update AND an unconditional create (whose 409 falls back to
a second update), while a missing room receives only the create; in both
cases the final store holds the room with the intended parameters, so the
outcome is idempotent regardless of race outcome. -/
theorem createOrUpdateRooms_amended :
    (∀ (s : RoomsState) (roomId : String) (params : RoomParams),
      (s.rooms.find? fun e => e.1 == roomId).isSome = true →
      createRoom roomId params s =
        (some roomId,
          { rooms := s.rooms.map fun e =>
              if e.1 == roomId then (e.1, params) else e
            createRoomCalls := s.createRoomCalls ++ [roomId]
            updateRoomCalls := s.updateRoomCalls ++ [roomId] })) ∧
    (∀ (s : RoomsState) (roomId : String) (params : RoomParams),
      (s.rooms.find? fun e => e.1 == roomId).isSome = false →
      createRoom roomId params s =
        (some roomId,
          { rooms := s.rooms ++ [(roomId, params)]
            createRoomCalls := s.createRoomCalls ++ [roomId]
            updateRoomCalls := s.updateRoomCalls })) ∧
    (∀ (cordData : CordData) (existingRoomIds : List String) (roomId : String)
        (threadIds : List String) (location : Location) (s : RoomsState)
        (orgId : String) (rest : List String) (org : CordOrg),
      ((cordData.threads.filter fun t => threadIds.contains t.id).map
        (fun t => t.orgID)).filter (fun oid => !(oid == "")) = orgId :: rest →
      (cordData.orgs.find? fun o => o.id == orgId) = some org →
      truthyStr org.externalID = true →
      (existingRoomIds.contains roomId = true →
        (s.rooms.find? fun e => e.1 == roomId).isSome = true →
        processRoomGroup cordData existingRoomIds roomId threadIds location s =
          (([roomId], [roomId]),
            { rooms := s.rooms.map fun e =>
                if e.1 == roomId then (e.1, getRoomParams org location) else e
              createRoomCalls := s.createRoomCalls ++ [roomId]
              updateRoomCalls := s.updateRoomCalls ++ [roomId, roomId] })) ∧
      (existingRoomIds.contains roomId = false →
        (s.rooms.find? fun e => e.1 == roomId).isSome = false →
        processRoomGroup cordData existingRoomIds roomId threadIds location s =
          (([roomId], []),
            { rooms := s.rooms ++ [(roomId, getRoomParams org location)]
              createRoomCalls := s.createRoomCalls ++ [roomId]
              updateRoomCalls := s.updateRoomCalls }))) := by
  have hcreateTaken : ∀ (s : RoomsState) (roomId : String) (params : RoomParams),
      (s.rooms.find? fun e => e.1 == roomId).isSome = true →
      createRoom roomId params s =
        (some roomId,
          { rooms := s.rooms.map fun e =>
              if e.1 == roomId then (e.1, params) else e
            createRoomCalls := s.createRoomCalls ++ [roomId]
            updateRoomCalls := s.updateRoomCalls ++ [roomId] }) := by
    intro s roomId params hfound
    unfold createRoom lbCreateRoom lbUpdateRoom
    simp [hfound]
  have hcreateFree : ∀ (s : RoomsState) (roomId : String) (params : RoomParams),
      (s.rooms.find? fun e => e.1 == roomId).isSome = false →
      createRoom roomId params s =
        (some roomId,
          { rooms := s.rooms ++ [(roomId, params)]
            createRoomCalls := s.createRoomCalls ++ [roomId]
            updateRoomCalls := s.updateRoomCalls }) := by
    intro s roomId params hfree
    unfold createRoom lbCreateRoom
    simp [hfree]
  refine ⟨hcreateTaken, hcreateFree, ?_⟩
  intro cordData existingRoomIds roomId threadIds location s orgId rest org
    h1 h2 h3
  constructor
  · intro hex hst
    unfold processRoomGroup
    dsimp only
    rw [h1]
    dsimp only
    rw [h2]
    dsimp only
    rw [h3]
    unfold updateRoom lbUpdateRoom
    simp only [hex, hst, if_true, not_true, Bool.false_eq_true, if_false]
    rw [hcreateTaken _ roomId (getRoomParams org location)
      (by rw [roomUpdateMap_find_isSome]; exact hst)]
    dsimp only
    rw [roomUpdateMap_idem]
    simp
  · intro hex hst
    unfold processRoomGroup
    dsimp only
    rw [h1]
    dsimp only
    rw [h2]
    dsimp only
    rw [h3]
    simp only [hex, Bool.false_eq_true, if_false]
    rw [hcreateFree s roomId (getRoomParams org location) hst]
    simp

/-- Witness for C6's amended theorem: the concrete existing-room and
missing-room scenarios. -/
theorem createOrUpdateRooms_amended_witness :
    createRoom "room1" ⟨"client_o1", [("page", "p1")]⟩ roomStateExisting =
      (some "room1",
        { rooms := [("room1", ⟨"client_o1", [("page", "p1")]⟩)]
          createRoomCalls := ["room1"]
          updateRoomCalls := ["room1"] }) ∧
    processRoomGroup roomCordData [] "room2" ["t1"] roomLocation
      ⟨[], [], []⟩ =
      ((["room2"], []),
        { rooms := [("room2", getRoomParams ⟨"o1", some "ext-o1"⟩ roomLocation)]
          createRoomCalls := ["room2"]
          updateRoomCalls := [] }) := by
  constructor
  · have h := createOrUpdateRooms_amended.1 roomStateExisting "room1"
      ⟨"client_o1", [("page", "p1")]⟩ (by decide)
    rw [h]
    decide
  · have h := (createOrUpdateRooms_amended.2.2 roomCordData [] "room2" ["t1"]
      roomLocation ⟨[], [], []⟩ "o1" [] ⟨"o1", some "ext-o1"⟩ (by decide)
      (by decide) (by decide)).2 (by decide) (by decide)
    rw [h]
    rfl

end LiveblocksMigration
